/-
Verification of the Meshwar booking/capacity logic.

Shallow embedding of `src/services/bookingService.ts` and
`src/services/activityService.ts` over an explicit document store.
The Firestore collections `activities` and `bookings` are modelled as
association lists keyed by document id; `runTransaction` is modelled as
an all-or-nothing application of the buffered writes (Firestore's
documented transaction semantics), with an optional injected fault on
the increment step to express the spec's fault-injection property.
Timestamps (`serverTimestamp()`) are modelled as a `now : Nat` argument.
-/
import Mathlib

namespace Meshwar

/-- Booking status, the `"confirmed" | "pending" | "cancelled"` union of
`src/types/booking.ts` as used by `bookingService.ts`. -/
inductive BookingStatus where
  | confirmed
  | pending
  | cancelled
deriving DecidableEq

/-- A booking document: the fields `createBooking` writes
(`userId`, `activityId`, `status`, `createdAt`, `updatedAt`). -/
structure Booking where
  userId : String
  activityId : String
  status : BookingStatus
  createdAt : Nat
  updatedAt : Nat
deriving DecidableEq

/-- An activity document, restricted to the fields the booking and
activity services read or write: `participantLimit` (0 = unlimited),
the denormalized counter `currentParticipants` (an `Int`, since Firestore
`increment(-1)` can drive it below zero), the dates and the
`isExpired` flag set by `createActivity`, and the update timestamp. -/
structure Activity where
  participantLimit : Int
  currentParticipants : Int
  startDate : Nat
  endDate : Nat
  isExpired : Bool
  createdAt : Nat
  updatedAt : Nat
deriving DecidableEq

/-- The two Firestore collections touched by the booking service,
each an association list from document id to document. -/
structure Store where
  activities : List (String × Activity)
  bookings : List (String × Booking)
deriving DecidableEq

/-- Error outcomes of the admission operations.  The TypeScript code
throws `Error` with distinguishing messages; the spec names them
`NotFound` ("Activity not found" / "Booking not found"),
`CapacityExceeded` ("Activity has reached its participant limit"),
`DuplicateBooking` ("This user is already booked for this activity").
`TransactionFailed` models an aborted `runTransaction` (fault injection /
backing-store failure). -/
inductive BookingErr where
  | NotFound
  | CapacityExceeded
  | DuplicateBooking
  | TransactionFailed
deriving DecidableEq

instance {ε α : Type} [DecidableEq ε] [DecidableEq α] :
    DecidableEq (Except ε α) :=
  fun x y =>
    match x, y with
    | Except.ok a, Except.ok b => decidable_of_iff (a = b) (by simp)
    | Except.error e, Except.error f => decidable_of_iff (e = f) (by simp)
    | Except.ok _, Except.error _ => isFalse (fun h => Except.noConfusion h)
    | Except.error _, Except.ok _ => isFalse (fun h => Except.noConfusion h)

/-- Firestore `getDoc` on a collection: first binding for the id, if any. -/
def findDoc {β : Type} : List (String × β) → String → Option β
  | [], _ => none
  | (k, v) :: t, id => if k = id then some v else findDoc t id

/-- Firestore `update` on an existing document: replace the binding for
`id` (no effect on other keys; caller must know the doc exists). -/
def setDoc {β : Type} (l : List (String × β)) (id : String) (v : β) :
    List (String × β) :=
  l.map (fun p => if p.1 = id then (id, v) else p)

/-- Firestore `set` on a fresh reference: insert a new binding
(ids generated by `doc(collection(db, "bookings"))` are fresh, so
insertion at the front suffices). -/
def insertDoc {β : Type} (l : List (String × β)) (id : String) (v : β) :
    List (String × β) :=
  (id, v) :: l

/-- Firestore `delete`: remove the binding(s) for `id`. -/
def removeDoc {β : Type} (l : List (String × β)) (id : String) :
    List (String × β) :=
  l.filter (fun p => ¬ (p.1 = id))

/-- The `where("status", "in", ["confirmed", "pending"])` filter of the
duplicate-booking query: a booking is *active* when confirmed or pending. -/
def isActive (b : Booking) : Bool :=
  b.status = BookingStatus.confirmed ∨ b.status = BookingStatus.pending

namespace bookingService

/-- The pre-transaction phase of `createBooking`
(bookingService.ts:245-273): load the activity (`NotFound` if absent),
check `participantLimit > 0 && currentParticipants >= participantLimit`
(`CapacityExceeded`), then query active bookings for
`(userId, activityId)` (`DuplicateBooking` if any). Returns the activity
read on success. -/
def createChecks (s : Store) (userId activityId : String) :
    Except BookingErr Activity :=
  match findDoc s.activities activityId with
  | none => Except.error BookingErr.NotFound
  | some act =>
    if act.participantLimit > 0 ∧ act.currentParticipants ≥ act.participantLimit then
      Except.error BookingErr.CapacityExceeded
    else if (s.bookings.filter (fun p =>
        p.2.userId = userId ∧ p.2.activityId = activityId ∧ isActive p.2)) ≠ [] then
      Except.error BookingErr.DuplicateBooking
    else
      Except.ok act

/-- The body of `createBooking`'s `runTransaction`
(bookingService.ts:276-292), applied atomically: `transaction.set` a new
booking document and `transaction.update` the activity with
`currentParticipants: increment(1)` and a fresh timestamp.
`transaction.update` fails when the activity document is absent
(Firestore semantics), aborting the transaction: `none`. -/
def createCommit (s : Store) (userId activityId : String)
    (status : BookingStatus) (newId : String) (now : Nat) : Option Store :=
  match findDoc s.activities activityId with
  | none => none
  | some act =>
    let b : Booking :=
      { userId := userId, activityId := activityId, status := status,
        createdAt := now, updatedAt := now }
    let act2 : Activity :=
      { act with currentParticipants := act.currentParticipants + 1,
                 updatedAt := now }
    some { s with
      bookings := insertDoc s.bookings newId b,
      activities := setDoc s.activities activityId act2 }

/-- `createBooking(bookingData)` (bookingService.ts:243-297): run the
pre-transaction checks, then the transaction.  `newId` is the fresh id
minted by `doc(collection(db, "bookings"))`; `fault` injects a failure of
the increment step, which aborts the whole transaction.  Returns the
outcome together with the resulting store (unchanged on error). -/
def createBooking (s : Store) (userId activityId : String)
    (status : BookingStatus) (newId : String) (now : Nat) (fault : Bool) :
    Except BookingErr String × Store :=
  match createChecks s userId activityId with
  | Except.error e => (Except.error e, s)
  | Except.ok _ =>
    if fault then (Except.error BookingErr.TransactionFailed, s)
    else
      match createCommit s userId activityId status newId now with
      | none => (Except.error BookingErr.NotFound, s)
      | some s2 => (Except.ok newId, s2)

/-- `deleteBooking(id)` (bookingService.ts:309-338): load the booking
(`NotFound` if absent), then in one transaction delete it and
`transaction.update` its activity with `currentParticipants: increment(-1)`
(no floor at 0).  The update fails when the activity document is absent,
aborting the transaction with the booking still in place. -/
def deleteBooking (s : Store) (id : String) (now : Nat) :
    Except BookingErr Unit × Store :=
  match findDoc s.bookings id with
  | none => (Except.error BookingErr.NotFound, s)
  | some b =>
    match findDoc s.activities b.activityId with
    | none => (Except.error BookingErr.TransactionFailed, s)
    | some act =>
      let act2 : Activity :=
        { act with currentParticipants := act.currentParticipants - 1,
                   updatedAt := now }
      (Except.ok (),
        { s with
          bookings := removeDoc s.bookings id,
          activities := setDoc s.activities b.activityId act2 })

/-- `changeBookingStatus(id, status)` (bookingService.ts:341-347):
`updateDoc` writing only `status` and `updatedAt`; fails (leaving the
store unchanged) when the booking document is absent. -/
def changeBookingStatus (s : Store) (id : String) (status : BookingStatus)
    (now : Nat) : Except BookingErr Unit × Store :=
  match findDoc s.bookings id with
  | none => (Except.error BookingErr.NotFound, s)
  | some b =>
    let b2 : Booking := { b with status := status, updatedAt := now }
    (Except.ok (), { s with bookings := setDoc s.bookings id b2 })

end bookingService

/-- The caller-supplied payload of `createActivity`
(`Omit<Activity, "id" | "createdAt" | "updatedAt" | "isExpired">`), so a
`currentParticipants` value may be present in it. -/
structure ActivityInput where
  participantLimit : Int
  currentParticipants : Int
  startDate : Nat
  endDate : Nat
deriving DecidableEq

namespace activityService

/-- `createActivity(activityData)` (activityService.ts:194-214): the new
document is the spread of `activityData` with `isExpired` computed as
`new Date(endDate) < now`, `currentParticipants: 0` (written after the
spread, so it overrides any caller-supplied value) and server timestamps. -/
def createActivity (inp : ActivityInput) (now : Nat) : Activity :=
  { participantLimit := inp.participantLimit,
    currentParticipants := 0,
    startDate := inp.startDate,
    endDate := inp.endDate,
    isExpired := decide (inp.endDate < now),
    createdAt := now,
    updatedAt := now }

end activityService

/-! The second, unnamed copy of the booking service
(src/unnamed/part_002); its `createBooking` (lines 467-521) and
`deleteBooking` (lines 533-562) are embedded independently here so the
two copies can be compared. -/

namespace unnamedCopy

/-- Pre-transaction checks of the unnamed copy's `createBooking`
(part_002:469-497): activity lookup, capacity test, active-duplicate
query, in that order. -/
def createChecks (s : Store) (userId activityId : String) :
    Except BookingErr Activity :=
  match findDoc s.activities activityId with
  | none => Except.error BookingErr.NotFound
  | some act =>
    if act.participantLimit > 0 ∧ act.currentParticipants ≥ act.participantLimit then
      Except.error BookingErr.CapacityExceeded
    else if (s.bookings.filter (fun p =>
        p.2.userId = userId ∧ p.2.activityId = activityId ∧ isActive p.2)) ≠ [] then
      Except.error BookingErr.DuplicateBooking
    else
      Except.ok act

/-- Transaction body of the unnamed copy's `createBooking`
(part_002:500-515): set the new booking, `increment(1)` the activity. -/
def createCommit (s : Store) (userId activityId : String)
    (status : BookingStatus) (newId : String) (now : Nat) : Option Store :=
  match findDoc s.activities activityId with
  | none => none
  | some act =>
    let b : Booking :=
      { userId := userId, activityId := activityId, status := status,
        createdAt := now, updatedAt := now }
    let act2 : Activity :=
      { act with currentParticipants := act.currentParticipants + 1,
                 updatedAt := now }
    some { s with
      bookings := insertDoc s.bookings newId b,
      activities := setDoc s.activities activityId act2 }

/-- The unnamed copy's `createBooking` (part_002:467-521). -/
def createBooking (s : Store) (userId activityId : String)
    (status : BookingStatus) (newId : String) (now : Nat) (fault : Bool) :
    Except BookingErr String × Store :=
  match createChecks s userId activityId with
  | Except.error e => (Except.error e, s)
  | Except.ok _ =>
    if fault then (Except.error BookingErr.TransactionFailed, s)
    else
      match createCommit s userId activityId status newId now with
      | none => (Except.error BookingErr.NotFound, s)
      | some s2 => (Except.ok newId, s2)

/-- The unnamed copy's `deleteBooking` (part_002:533-562): load the
booking, then transactionally delete it and `increment(-1)` its
activity. -/
def deleteBooking (s : Store) (id : String) (now : Nat) :
    Except BookingErr Unit × Store :=
  match findDoc s.bookings id with
  | none => (Except.error BookingErr.NotFound, s)
  | some b =>
    match findDoc s.activities b.activityId with
    | none => (Except.error BookingErr.TransactionFailed, s)
    | some act =>
      let act2 : Activity :=
        { act with currentParticipants := act.currentParticipants - 1,
                   updatedAt := now }
      (Except.ok (),
        { s with
          bookings := removeDoc s.bookings id,
          activities := setDoc s.activities b.activityId act2 })

end unnamedCopy

/-! ## Invariants and operation traces -/

/-- Number of bookings in `l` that reference activity `aId`, of any
status (the quantity `createBooking`/`deleteBooking` actually keep the
counter in step with). -/
def countFor (l : List (String × Booking)) (aId : String) : Nat :=
  (l.filter (fun p => p.2.activityId = aId)).length

/-- Number of *active* (confirmed or pending) bookings in `l` that
reference activity `aId` — the quantity the spec's stated invariant
compares the counter against. -/
def activeCountFor (l : List (String × Booking)) (aId : String) : Nat :=
  (l.filter (fun p => p.2.activityId = aId ∧ isActive p.2)).length

/-- The spec's stated invariant (claim wording): every activity's
`currentParticipants` equals its number of confirmed-or-pending bookings
and, when `participantLimit > 0`, does not exceed the limit. -/
def capacityInv (s : Store) : Prop :=
  ∀ p ∈ s.activities,
    p.2.currentParticipants = (activeCountFor s.bookings p.1 : Int) ∧
    (p.2.participantLimit > 0 →
      p.2.currentParticipants ≤ p.2.participantLimit)

/-- The invariant the code actually maintains: every activity's
`currentParticipants` equals its number of bookings *of any status*
and, when `participantLimit > 0`, does not exceed the limit. -/
def storeInv (s : Store) : Prop :=
  ∀ p ∈ s.activities,
    p.2.currentParticipants = (countFor s.bookings p.1 : Int) ∧
    (p.2.participantLimit > 0 →
      p.2.currentParticipants ≤ p.2.participantLimit)

/-- Well-formed store: document ids are unique within each collection
(guaranteed by Firestore). -/
def WF (s : Store) : Prop :=
  (s.activities.map Prod.fst).Nodup ∧ (s.bookings.map Prod.fst).Nodup

instance (s : Store) : Decidable (capacityInv s) := by
  unfold capacityInv; infer_instance

instance (s : Store) : Decidable (storeInv s) := by
  unfold storeInv; infer_instance

instance (s : Store) : Decidable (WF s) := by
  unfold WF; infer_instance

/-- A sequential call to one of the three admission operations, with the
fresh id and server timestamp it uses. -/
inductive Op where
  | create (userId activityId : String) (status : BookingStatus)
      (newId : String) (now : Nat)
  | remove (id : String) (now : Nat)
  | setStatus (id : String) (status : BookingStatus) (now : Nat)

/-- Resulting store of one call (a failed call leaves the store as it
returned it, i.e. unchanged). -/
def applyOp (s : Store) : Op → Store
  | Op.create u a st newId now =>
      (bookingService.createBooking s u a st newId now false).2
  | Op.remove id now => (bookingService.deleteBooking s id now).2
  | Op.setStatus id st now =>
      (bookingService.changeBookingStatus s id st now).2

/-- Run a sequence of calls left to right. -/
def runTrace (s : Store) : List Op → Store
  | [] => s
  | op :: rest => runTrace (applyOp s op) rest

/-- Every create in the trace uses a booking id not already present when
it runs (Firestore mints fresh document ids). -/
def freshTrace (s : Store) : List Op → Bool
  | [] => true
  | op :: rest =>
    (match op with
     | Op.create _ _ _ newId _ => findDoc s.bookings newId = none
     | _ => true) && freshTrace (applyOp s op) rest

/-- `true` exactly on `Except.ok`. -/
def succeeded {ε α : Type} : Except ε α → Bool
  | Except.ok _ => true
  | Except.error _ => false

/-- Number of successful `createBooking` calls against activity `aId`
in the trace. -/
def traceCreates (s : Store) (aId : String) : List Op → Nat
  | [] => 0
  | op :: rest =>
    (match op with
     | Op.create u a st newId now =>
        if a = aId ∧
            succeeded (bookingService.createBooking s u a st newId now false).1 then
          1
        else 0
     | _ => 0) + traceCreates (applyOp s op) aId rest

/-- Number of successful `deleteBooking` calls in the trace whose booking
referenced activity `aId`. -/
def traceDeletes (s : Store) (aId : String) : List Op → Nat
  | [] => 0
  | op :: rest =>
    (match op with
     | Op.remove id now =>
        (match findDoc s.bookings id with
         | some b =>
            if b.activityId = aId ∧
                succeeded (bookingService.deleteBooking s id now).1 then
              1
            else 0
         | none => 0)
     | _ => 0) + traceDeletes (applyOp s op) aId rest

/-! ## Association-list lemmas -/

theorem setDoc_cons {β : Type} (k : String) (w : β) (t : List (String × β))
    (id : String) (v : β) :
    setDoc ((k, w) :: t) id v
      = (if k = id then (id, v) else (k, w)) :: setDoc t id v := rfl

theorem removeDoc_cons {β : Type} (k : String) (w : β) (t : List (String × β))
    (id : String) :
    removeDoc ((k, w) :: t) id
      = if k = id then removeDoc t id else (k, w) :: removeDoc t id := by
  by_cases hk : k = id <;> simp [removeDoc, hk]

theorem findDoc_setDoc_self {β : Type} {l : List (String × β)} {id : String}
    {v0 : β} (v : β) (h : findDoc l id = some v0) :
    findDoc (setDoc l id v) id = some v := by
  induction l with
  | nil => simp [findDoc] at h
  | cons p t ih =>
    obtain ⟨k, w⟩ := p
    rw [setDoc_cons]
    by_cases hk : k = id
    · rw [if_pos hk]
      simp [findDoc]
    · rw [if_neg hk]
      simp only [findDoc, hk, if_false] at h ⊢
      exact ih h

theorem findDoc_setDoc_ne {β : Type} (l : List (String × β)) (id k : String)
    (v : β) (h : k ≠ id) : findDoc (setDoc l id v) k = findDoc l k := by
  induction l with
  | nil => simp [findDoc, setDoc]
  | cons p t ih =>
    obtain ⟨j, w⟩ := p
    rw [setDoc_cons]
    by_cases hj : j = id
    · rw [if_pos hj]
      simp only [findDoc, Ne.symm h, if_false, hj, ih]
    · rw [if_neg hj]
      simp only [findDoc, ih]

theorem map_fst_setDoc {β : Type} (l : List (String × β)) (id : String)
    (v : β) : (setDoc l id v).map Prod.fst = l.map Prod.fst := by
  induction l with
  | nil => simp [setDoc]
  | cons p t ih =>
    obtain ⟨j, w⟩ := p
    rw [setDoc_cons]
    by_cases hj : j = id
    · rw [if_pos hj]
      simp [hj, ih]
    · rw [if_neg hj]
      simp [ih]

theorem setDoc_of_not_mem {β : Type} {l : List (String × β)} {id : String}
    (v : β) (h : ¬ id ∈ l.map Prod.fst) : setDoc l id v = l := by
  induction l with
  | nil => simp [setDoc]
  | cons p t ih =>
    obtain ⟨j, w⟩ := p
    simp only [List.map_cons, List.mem_cons] at h
    push_neg at h
    have hji : j ≠ id := fun hc => h.1 hc.symm
    rw [setDoc_cons, if_neg hji, ih h.2]

theorem findDoc_removeDoc_ne {β : Type} (l : List (String × β)) (id k : String)
    (h : k ≠ id) : findDoc (removeDoc l id) k = findDoc l k := by
  induction l with
  | nil => simp [findDoc, removeDoc]
  | cons p t ih =>
    obtain ⟨j, w⟩ := p
    rw [removeDoc_cons]
    by_cases hj : j = id
    · rw [if_pos hj]
      rw [ih]
      have hjk : j ≠ k := fun hc => h (hc ▸ hj)
      simp [findDoc, hjk]
    · rw [if_neg hj]
      simp only [findDoc, ih]

theorem findDoc_mem {β : Type} {l : List (String × β)} {id : String} {v : β}
    (h : findDoc l id = some v) : (id, v) ∈ l := by
  induction l with
  | nil => simp [findDoc] at h
  | cons p t ih =>
    obtain ⟨k, w⟩ := p
    simp only [findDoc] at h
    by_cases hk : k = id
    · rw [if_pos hk] at h
      simp only [Option.some_inj] at h
      subst hk h
      exact List.mem_cons_self _ _
    · rw [if_neg hk] at h
      exact List.mem_cons_of_mem _ (ih h)

theorem findDoc_eq_none {β : Type} {l : List (String × β)} {id : String}
    (h : findDoc l id = none) : ¬ id ∈ l.map Prod.fst := by
  induction l with
  | nil => simp
  | cons p t ih =>
    obtain ⟨k, w⟩ := p
    simp only [findDoc] at h
    by_cases hk : k = id
    · rw [if_pos hk] at h
      exact absurd h (by simp)
    · rw [if_neg hk] at h
      simp only [List.map_cons, List.mem_cons]
      push_neg
      exact ⟨fun hc => hk hc.symm, ih h⟩

theorem countFor_cons (id : String) (b : Booking) (l : List (String × Booking))
    (a : String) :
    countFor ((id, b) :: l) a
      = (if b.activityId = a then 1 else 0) + countFor l a := by
  by_cases hb : b.activityId = a <;>
    simp [countFor, List.filter_cons, hb, Nat.add_comm]

theorem countFor_pos {l : List (String × Booking)} {id : String} {b : Booking}
    {a : String} (h : findDoc l id = some b) (hb : b.activityId = a) :
    1 ≤ countFor l a := by
  induction l with
  | nil => simp [findDoc] at h
  | cons p t ih =>
    obtain ⟨k, w⟩ := p
    simp only [findDoc] at h
    rw [countFor_cons]
    by_cases hk : k = id
    · rw [if_pos hk] at h
      simp only [Option.some_inj] at h
      subst h
      simp [hb]
    · rw [if_neg hk] at h
      exact le_trans (ih h) (Nat.le_add_left _ _)

theorem countFor_setDoc {l : List (String × Booking)} {id : String}
    {b : Booking} (b2 : Booking) (h : findDoc l id = some b)
    (hnd : (l.map Prod.fst).Nodup) (hact : b2.activityId = b.activityId)
    (a : String) : countFor (setDoc l id b2) a = countFor l a := by
  induction l with
  | nil => simp [findDoc] at h
  | cons p t ih =>
    obtain ⟨k, w⟩ := p
    simp only [List.map_cons, List.nodup_cons] at hnd
    simp only [findDoc] at h
    rw [setDoc_cons]
    by_cases hk : k = id
    · rw [if_pos hk] at h ⊢
      simp only [Option.some_inj] at h
      subst h
      rw [setDoc_of_not_mem b2 (hk ▸ hnd.1)]
      rw [countFor_cons, countFor_cons, hact]
    · rw [if_neg hk] at h ⊢
      rw [countFor_cons, countFor_cons, ih h hnd.2]

theorem countFor_removeDoc {l : List (String × Booking)} {id : String}
    {b : Booking} (h : findDoc l id = some b)
    (hnd : (l.map Prod.fst).Nodup) (a : String) :
    countFor (removeDoc l id) a + (if b.activityId = a then 1 else 0)
      = countFor l a := by
  induction l with
  | nil => simp [findDoc] at h
  | cons p t ih =>
    obtain ⟨k, w⟩ := p
    simp only [List.map_cons, List.nodup_cons] at hnd
    simp only [findDoc] at h
    rw [removeDoc_cons]
    by_cases hk : k = id
    · rw [if_pos hk] at h ⊢
      simp only [Option.some_inj] at h
      subst h
      have : removeDoc t id = t := by
        have hnotin : ¬ id ∈ t.map Prod.fst := hk ▸ hnd.1
        simp only [removeDoc]
        rw [List.filter_eq_self]
        intro p hp
        simp only [decide_not, Bool.not_eq_true', decide_eq_false_iff_not]
        exact fun hc => hnotin (hc ▸ List.mem_map_of_mem Prod.fst hp)
      rw [this, countFor_cons, Nat.add_comm]
    · rw [if_neg hk] at h ⊢
      rw [countFor_cons, countFor_cons, ← ih h hnd.2]
      generalize (if w.activityId = a then 1 else 0) = cw
      generalize (if b.activityId = a then 1 else 0) = cb
      omega

theorem nodup_removeDoc {β : Type} {l : List (String × β)} (id : String)
    (h : (l.map Prod.fst).Nodup) : ((removeDoc l id).map Prod.fst).Nodup :=
  List.Nodup.sublist (List.Sublist.map Prod.fst (List.filter_sublist l)) h

theorem mem_setDoc {β : Type} {l : List (String × β)} {id : String} {v : β}
    {p : String × β} (h : p ∈ setDoc l id v) :
    p = (id, v) ∨ (p ∈ l ∧ p.1 ≠ id) := by
  simp only [setDoc, List.mem_map] at h
  obtain ⟨q, hq, hfq⟩ := h
  by_cases hq1 : q.1 = id
  · rw [if_pos hq1] at hfq
    exact Or.inl hfq.symm
  · rw [if_neg hq1] at hfq
    exact Or.inr ⟨hfq ▸ hq, hfq ▸ hq1⟩

/-- Inversion of a successful pre-transaction phase: the activity was
found, the capacity test did not fire, and the duplicate query was
empty. -/
theorem createChecks_ok {s : Store} {u a : String} {act : Activity}
    (h : bookingService.createChecks s u a = Except.ok act) :
    findDoc s.activities a = some act ∧
    ¬ (act.participantLimit > 0 ∧
        act.currentParticipants ≥ act.participantLimit) ∧
    s.bookings.filter
      (fun p => p.2.userId = u ∧ p.2.activityId = a ∧ isActive p.2) = [] := by
  unfold bookingService.createChecks at h
  rcases hf : findDoc s.activities a with _ | act0 <;> rw [hf] at h <;>
    dsimp only at h
  · exact absurd h (by simp)
  · split at h
    · exact absurd h (by simp)
    · split at h
      · exact absurd h (by simp)
      · rename_i hcap hdup
        simp only [Except.ok.injEq] at h
        subst h
        refine ⟨rfl, hcap, ?_⟩
        simpa using hdup

/-- The store after a committed create transaction that read `act`. -/
def commitState (s : Store) (u a : String) (st : BookingStatus)
    (newId : String) (now : Nat) (act : Activity) : Store :=
  let b : Booking :=
    { userId := u, activityId := a, status := st,
      createdAt := now, updatedAt := now }
  let act2 : Activity :=
    { act with currentParticipants := act.currentParticipants + 1,
               updatedAt := now }
  { s with
    bookings := insertDoc s.bookings newId b,
    activities := setDoc s.activities a act2 }

/-- The store after a committed delete transaction on booking `(id, b)`
whose activity read `act`. -/
def removeState (s : Store) (id : String) (b : Booking) (act : Activity)
    (now : Nat) : Store :=
  let act2 : Activity :=
    { act with currentParticipants := act.currentParticipants - 1,
               updatedAt := now }
  { s with
    bookings := removeDoc s.bookings id,
    activities := setDoc s.activities b.activityId act2 }

/-- The store after a status update of booking `(id, b)`. -/
def statusState (s : Store) (id : String) (b : Booking)
    (st : BookingStatus) (now : Nat) : Store :=
  let b2 : Booking := { b with status := st, updatedAt := now }
  { s with bookings := setDoc s.bookings id b2 }

theorem createCommit_eq {s : Store} {a : String} {act : Activity}
    (u : String) (st : BookingStatus) (newId : String) (now : Nat)
    (h : findDoc s.activities a = some act) :
    bookingService.createCommit s u a st newId now
      = some (commitState s u a st newId now act) := by
  unfold bookingService.createCommit
  rw [h]
  rfl

theorem createBooking_split (s : Store) (u a : String) (st : BookingStatus)
    (newId : String) (now : Nat) (fault : Bool) :
    (∃ e, bookingService.createBooking s u a st newId now fault
        = (Except.error e, s)) ∨
    (∃ act, bookingService.createChecks s u a = Except.ok act ∧
      fault = false ∧
      bookingService.createBooking s u a st newId now fault
        = (Except.ok newId, commitState s u a st newId now act)) := by
  unfold bookingService.createBooking
  rcases hchk : bookingService.createChecks s u a with e | act
  · exact Or.inl ⟨e, rfl⟩
  · rcases fault with _ | _
    · right
      refine ⟨act, rfl, rfl, ?_⟩
      rw [if_neg (by simp)]
      rw [createCommit_eq u st newId now (createChecks_ok hchk).1]
    · exact Or.inl ⟨BookingErr.TransactionFailed, by rw [if_pos rfl]⟩

theorem deleteBooking_not_found {s : Store} {id : String} (now : Nat)
    (h : findDoc s.bookings id = none) :
    bookingService.deleteBooking s id now
      = (Except.error BookingErr.NotFound, s) := by
  unfold bookingService.deleteBooking
  rw [h]

theorem deleteBooking_no_activity {s : Store} {id : String} {b : Booking}
    (now : Nat) (h1 : findDoc s.bookings id = some b)
    (h2 : findDoc s.activities b.activityId = none) :
    bookingService.deleteBooking s id now
      = (Except.error BookingErr.TransactionFailed, s) := by
  unfold bookingService.deleteBooking
  rw [h1]
  dsimp only
  rw [h2]

theorem deleteBooking_found {s : Store} {id : String} {b : Booking}
    {act : Activity} (now : Nat) (h1 : findDoc s.bookings id = some b)
    (h2 : findDoc s.activities b.activityId = some act) :
    bookingService.deleteBooking s id now
      = (Except.ok (), removeState s id b act now) := by
  unfold bookingService.deleteBooking
  rw [h1]
  dsimp only
  rw [h2]
  rfl

theorem changeStatus_not_found {s : Store} {id : String}
    (st : BookingStatus) (now : Nat) (h : findDoc s.bookings id = none) :
    bookingService.changeBookingStatus s id st now
      = (Except.error BookingErr.NotFound, s) := by
  unfold bookingService.changeBookingStatus
  rw [h]

theorem changeStatus_found {s : Store} {id : String} {b : Booking}
    (st : BookingStatus) (now : Nat) (h : findDoc s.bookings id = some b) :
    bookingService.changeBookingStatus s id st now
      = (Except.ok (), statusState s id b st now) := by
  unfold bookingService.changeBookingStatus
  rw [h]
  rfl

/-- A successful (or failed) `createBooking` with a fresh id preserves
the counter invariant and store well-formedness. -/
theorem create_preserves (s : Store) (u a : String) (st : BookingStatus)
    (newId : String) (now : Nat) (hInv : storeInv s) (hWF : WF s)
    (hfresh : findDoc s.bookings newId = none) :
    storeInv (bookingService.createBooking s u a st newId now false).2 ∧
    WF (bookingService.createBooking s u a st newId now false).2 := by
  rcases createBooking_split s u a st newId now false with
    ⟨e, heq⟩ | ⟨act, hchk, _, heq⟩
  · rw [heq]
    exact ⟨hInv, hWF⟩
  · rw [heq]
    obtain ⟨hfind, hcap, _⟩ := createChecks_ok hchk
    have hact_mem : (a, act) ∈ s.activities := findDoc_mem hfind
    have hinv := hInv _ hact_mem
    dsimp only at hinv
    constructor
    · intro p hp
      simp only [commitState] at hp ⊢
      rcases mem_setDoc hp with hpe | ⟨hpmem, hpne⟩
      · subst hpe
        dsimp only [insertDoc]
        rw [countFor_cons]
        rw [if_pos rfl]
        constructor
        · push_cast
          omega
        · intro hlim
          omega
      · have hinvp := hInv _ hpmem
        dsimp only [insertDoc]
        rw [countFor_cons]
        rw [if_neg (Ne.symm hpne)]
        simpa using hinvp
    · constructor
      · simp only [commitState]
        rw [map_fst_setDoc]
        exact hWF.1
      · simp only [commitState, insertDoc, List.map_cons, List.nodup_cons]
        exact ⟨findDoc_eq_none hfresh, hWF.2⟩

/-- A `deleteBooking` call preserves the counter invariant and store
well-formedness. -/
theorem remove_preserves (s : Store) (id : String) (now : Nat)
    (hInv : storeInv s) (hWF : WF s) :
    storeInv (bookingService.deleteBooking s id now).2 ∧
    WF (bookingService.deleteBooking s id now).2 := by
  rcases hb : findDoc s.bookings id with _ | b
  · rw [deleteBooking_not_found now hb]
    exact ⟨hInv, hWF⟩
  · rcases ha : findDoc s.activities b.activityId with _ | act
    · rw [deleteBooking_no_activity now hb ha]
      exact ⟨hInv, hWF⟩
    · rw [deleteBooking_found now hb ha]
      have hact_mem : (b.activityId, act) ∈ s.activities := findDoc_mem ha
      have hinv := hInv _ hact_mem
      dsimp only at hinv
      have hcnt := countFor_removeDoc hb hWF.2 b.activityId
      rw [if_pos rfl] at hcnt
      have hpos : 1 ≤ countFor s.bookings b.activityId := countFor_pos hb rfl
      constructor
      · intro p hp
        simp only [removeState] at hp ⊢
        rcases mem_setDoc hp with hpe | ⟨hpmem, hpne⟩
        · subst hpe
          dsimp only
          constructor
          · omega
          · intro hlim
            have := hinv.2
            omega
        · have hinvp := hInv _ hpmem
          have hcnt2 := countFor_removeDoc hb hWF.2 p.1
          rw [if_neg (Ne.symm hpne)] at hcnt2
          constructor
          · rw [hinvp.1]
            omega
          · exact hinvp.2
      · exact ⟨by simp only [removeState]; rw [map_fst_setDoc]; exact hWF.1,
          by simp only [removeState]; exact nodup_removeDoc id hWF.2⟩

/-- A `changeBookingStatus` call preserves the counter invariant and
store well-formedness. -/
theorem status_preserves (s : Store) (id : String) (st : BookingStatus)
    (now : Nat) (hInv : storeInv s) (hWF : WF s) :
    storeInv (bookingService.changeBookingStatus s id st now).2 ∧
    WF (bookingService.changeBookingStatus s id st now).2 := by
  rcases hb : findDoc s.bookings id with _ | b
  · rw [changeStatus_not_found st now hb]
    exact ⟨hInv, hWF⟩
  · rw [changeStatus_found st now hb]
    constructor
    · intro p hp
      simp only [statusState] at hp ⊢
      have hinvp := hInv _ hp
      have hcnt := countFor_setDoc
        ({ b with status := st, updatedAt := now }) hb hWF.2 rfl p.1
      rw [hcnt]
      exact hinvp
    · refine ⟨hWF.1, ?_⟩
      simp only [statusState]
      rw [map_fst_setDoc]
      exact hWF.2

/-- The create operation of `op`, if any, uses a booking id that is
fresh in `s`. -/
def opFresh (s : Store) : Op → Prop
  | Op.create _ _ _ newId _ => findDoc s.bookings newId = none
  | _ => True

theorem applyOp_preserves (s : Store) (op : Op) (hInv : storeInv s)
    (hWF : WF s) (hfresh : opFresh s op) :
    storeInv (applyOp s op) ∧ WF (applyOp s op) := by
  cases op with
  | create u a st newId now =>
      exact create_preserves s u a st newId now hInv hWF hfresh
  | remove id now => exact remove_preserves s id now hInv hWF
  | setStatus id st now => exact status_preserves s id st now hInv hWF

theorem freshTrace_cons {s : Store} {op : Op} {rest : List Op}
    (h : freshTrace s (op :: rest) = true) :
    opFresh s op ∧ freshTrace (applyOp s op) rest = true := by
  simp only [freshTrace, Bool.and_eq_true] at h
  refine ⟨?_, h.2⟩
  cases op with
  | create u a st newId now => simpa [opFresh] using h.1
  | remove id now => trivial
  | setStatus id st now => trivial

/-- Running any well-formed trace of the three admission operations
preserves the counter invariant and store well-formedness. -/
theorem inv_run (ops : List Op) :
    ∀ s : Store, storeInv s → WF s → freshTrace s ops = true →
      storeInv (runTrace s ops) ∧ WF (runTrace s ops) := by
  induction ops with
  | nil =>
      intro s h1 h2 _
      exact ⟨h1, h2⟩
  | cons op rest ih =>
      intro s h1 h2 hf
      obtain ⟨hhead, htail⟩ := freshTrace_cons hf
      obtain ⟨h1b, h2b⟩ := applyOp_preserves s op h1 h2 hhead
      exact ih _ h1b h2b htail

theorem traceCreates_cons (s : Store) (aId : String) (op : Op)
    (rest : List Op) :
    traceCreates s aId (op :: rest)
      = traceCreates s aId [op] + traceCreates (applyOp s op) aId rest := by
  cases op <;> simp [traceCreates]

theorem traceDeletes_cons (s : Store) (aId : String) (op : Op)
    (rest : List Op) :
    traceDeletes s aId (op :: rest)
      = traceDeletes s aId [op] + traceDeletes (applyOp s op) aId rest := by
  cases op <;> simp [traceDeletes]

/-- One operation keeps a single activity's counter equal to the number
of bookings referencing it, and moves both by exactly the operation's
contribution to the success counters. -/
theorem counter_step (s : Store) (aId : String) (op : Op) (act : Activity)
    (hnd : (s.bookings.map Prod.fst).Nodup) (hfresh : opFresh s op)
    (hfind : findDoc s.activities aId = some act)
    (hcnt : act.currentParticipants = (countFor s.bookings aId : Int)) :
    ∃ act2, findDoc (applyOp s op).activities aId = some act2 ∧
      ((applyOp s op).bookings.map Prod.fst).Nodup ∧
      act2.currentParticipants = (countFor (applyOp s op).bookings aId : Int) ∧
      countFor (applyOp s op).bookings aId + traceDeletes s aId [op]
        = countFor s.bookings aId + traceCreates s aId [op] := by
  cases op with
  | create u a st newId now =>
    simp only [applyOp, traceCreates, traceDeletes, Nat.add_zero]
    rcases createBooking_split s u a st newId now false with
      ⟨e, heq⟩ | ⟨act0, hchk, _, heq⟩
    · rw [heq]
      refine ⟨act, hfind, hnd, hcnt, ?_⟩
      simp [succeeded]
    · rw [heq]
      have hok : succeeded (Except.ok (ε := BookingErr) newId) = true := rfl
      obtain ⟨hfind0, _, _⟩ := createChecks_ok hchk
      by_cases ha : a = aId
      · subst ha
        have hacts : act0 = act := by
          rw [hfind0] at hfind
          exact Option.some_inj.mp hfind
        subst hacts
        refine ⟨_, findDoc_setDoc_self _ hfind0, ?_, ?_, ?_⟩
        · simp only [commitState, insertDoc, List.map_cons, List.nodup_cons]
          exact ⟨findDoc_eq_none hfresh, hnd⟩
        · simp only [commitState, insertDoc]
          rw [countFor_cons, if_pos rfl]
          push_cast
          omega
        · simp only [commitState, insertDoc]
          rw [countFor_cons, if_pos rfl]
          simp [succeeded]
          omega
      · refine ⟨act, ?_, ?_, ?_, ?_⟩
        · simp only [commitState]
          rw [findDoc_setDoc_ne _ _ _ _ (fun hc => ha hc.symm)]
          exact hfind
        · simp only [commitState, insertDoc, List.map_cons, List.nodup_cons]
          exact ⟨findDoc_eq_none hfresh, hnd⟩
        · simp only [commitState, insertDoc]
          rw [countFor_cons, if_neg ha]
          simpa using hcnt
        · simp only [commitState, insertDoc]
          rw [countFor_cons, if_neg ha]
          simp [ha]
  | remove id now =>
    simp only [applyOp, traceCreates, traceDeletes, Nat.add_zero]
    rcases hb : findDoc s.bookings id with _ | b
    · rw [deleteBooking_not_found now hb]
      exact ⟨act, hfind, hnd, hcnt, rfl⟩
    · rcases ha : findDoc s.activities b.activityId with _ | act0
      · rw [deleteBooking_no_activity now hb ha]
        refine ⟨act, hfind, hnd, hcnt, ?_⟩
        simp [succeeded]
      · rw [deleteBooking_found now hb ha]
        have hcntrm := countFor_removeDoc hb hnd aId
        by_cases hba : b.activityId = aId
        · rw [hba] at ha
          have hacts : act0 = act := by
            rw [ha] at hfind
            exact Option.some_inj.mp hfind
          subst hacts
          have hpos : 1 ≤ countFor s.bookings aId := countFor_pos hb hba
          rw [if_pos hba] at hcntrm
          refine ⟨{ act0 with
              currentParticipants := act0.currentParticipants - 1,
              updatedAt := now }, ?_, ?_, ?_, ?_⟩
          · simp only [removeState]
            rw [hba]
            exact findDoc_setDoc_self _ ha
          · simp only [removeState]
            exact nodup_removeDoc id hnd
          · simp only [removeState]
            omega
          · simp only [removeState]
            simp [succeeded, hba]
            omega
        · rw [if_neg (by simpa using hba)] at hcntrm
          rw [Nat.add_zero] at hcntrm
          refine ⟨act, ?_, ?_, ?_, ?_⟩
          · simp only [removeState]
            rw [findDoc_setDoc_ne _ _ _ _ (fun hc => hba hc.symm)]
            exact hfind
          · simp only [removeState]
            exact nodup_removeDoc id hnd
          · simp only [removeState]
            rw [hcntrm]
            exact hcnt
          · simp only [removeState]
            simp [succeeded, hba]
            omega
  | setStatus id st now =>
    simp only [applyOp, traceCreates, traceDeletes, Nat.add_zero]
    rcases hb : findDoc s.bookings id with _ | b
    · rw [changeStatus_not_found st now hb]
      exact ⟨act, hfind, hnd, hcnt, rfl⟩
    · rw [changeStatus_found st now hb]
      have hcnt2 := countFor_setDoc
        ({ b with status := st, updatedAt := now }) hb hnd rfl aId
      refine ⟨act, hfind, ?_, ?_, ?_⟩
      · simp only [statusState]
        rw [map_fst_setDoc]
        exact hnd
      · simp only [statusState]
        rw [hcnt2]
        exact hcnt
      · simp only [statusState]
        rw [hcnt2]

/-- Along any well-formed trace, a tracked activity's counter stays equal
to the number of bookings referencing it, and the booking count moves by
(successful creates) − (successful deletes). -/
theorem counter_run (aId : String) (ops : List Op) :
    ∀ (s : Store) (act : Activity),
      (s.bookings.map Prod.fst).Nodup → freshTrace s ops = true →
      findDoc s.activities aId = some act →
      act.currentParticipants = (countFor s.bookings aId : Int) →
      ∃ act2, findDoc (runTrace s ops).activities aId = some act2 ∧
        act2.currentParticipants
          = (countFor (runTrace s ops).bookings aId : Int) ∧
        countFor (runTrace s ops).bookings aId + traceDeletes s aId ops
          = countFor s.bookings aId + traceCreates s aId ops := by
  induction ops with
  | nil =>
      intro s act hnd _ hfind hcnt
      exact ⟨act, hfind, hcnt, by simp [traceCreates, traceDeletes, runTrace]⟩
  | cons op rest ih =>
      intro s act hnd hfr hfind hcnt
      obtain ⟨hhead, htail⟩ := freshTrace_cons hfr
      obtain ⟨act1, hfind1, hnd1, hcnt1, heq1⟩ :=
        counter_step s aId op act hnd hhead hfind hcnt
      obtain ⟨act2, hfind2, hcnt2, heq2⟩ :=
        ih (applyOp s op) act1 hnd1 htail hfind1 hcnt1
      simp only [runTrace]
      refine ⟨act2, hfind2, hcnt2, ?_⟩
      rw [traceCreates_cons, traceDeletes_cons]
      omega

theorem findDoc_removeDoc_self {β : Type} (l : List (String × β))
    (id : String) : findDoc (removeDoc l id) id = none := by
  induction l with
  | nil => simp [findDoc, removeDoc]
  | cons p t ih =>
    obtain ⟨j, w⟩ := p
    rw [removeDoc_cons]
    by_cases hj : j = id
    · rw [if_pos hj]
      exact ih
    · rw [if_neg hj]
      simp only [findDoc, hj, if_false]
      exact ih

/-- The pre-transaction phase reports `CapacityExceeded` exactly when the
capacity condition holds on the activity it read. -/
theorem createChecks_capacity {s : Store} {u a : String} {act : Activity}
    (hfind : findDoc s.activities a = some act) :
    (bookingService.createChecks s u a
        = Except.error BookingErr.CapacityExceeded) ↔
      (act.participantLimit > 0 ∧
        act.currentParticipants ≥ act.participantLimit) := by
  unfold bookingService.createChecks
  rw [hfind]
  dsimp only
  by_cases hcap : act.participantLimit > 0 ∧
      act.currentParticipants ≥ act.participantLimit
  · rw [if_pos hcap]
    simp [hcap]
  · rw [if_neg hcap]
    by_cases hdup : (s.bookings.filter (fun p =>
        p.2.userId = u ∧ p.2.activityId = a ∧ isActive p.2)) ≠ []
    · rw [if_pos hdup]
      simp [hcap]
    · rw [if_neg hdup]
      simp [hcap]

/-- `createBooking` surfaces `CapacityExceeded` exactly when the
pre-transaction phase produced it. -/
theorem createBooking_capacity_lift (s : Store) (u a : String)
    (st : BookingStatus) (newId : String) (now : Nat) (fault : Bool) :
    ((bookingService.createBooking s u a st newId now fault).1
        = Except.error BookingErr.CapacityExceeded) ↔
      (bookingService.createChecks s u a
        = Except.error BookingErr.CapacityExceeded) := by
  unfold bookingService.createBooking
  rcases hchk : bookingService.createChecks s u a with e | act
  · simp
  · dsimp only
    constructor
    · intro h
      exfalso
      rcases fault with _ | _
      · rw [if_neg (by simp)] at h
        rcases hc : bookingService.createCommit s u a st newId now with _ | s2
        · rw [hc] at h
          exact absurd h (by simp)
        · rw [hc] at h
          exact absurd h (by simp)
      · rw [if_pos rfl] at h
        exact absurd h (by simp)
    · intro h
      exact absurd h (by simp)

/-! ## Claims -/

/-- Activity document with the given limit and counter (other fields
fixed). -/
def mkActivity (limit current : Int) : Activity :=
  { participantLimit := limit, currentParticipants := current,
    startDate := 0, endDate := 10, isExpired := false,
    createdAt := 0, updatedAt := 0 }

/-- Booking document with the given references and status. -/
def mkBooking (u a : String) (st : BookingStatus) : Booking :=
  { userId := u, activityId := a, status := st, createdAt := 0,
    updatedAt := 0 }

/-- C1: when the target activity exists, `createBooking` fails with
`CapacityExceeded` if and only if `participantLimit > 0` and
`currentParticipants ≥ participantLimit`; in particular, with
`participantLimit = 0` it never fails with `CapacityExceeded`, whatever
`currentParticipants` is. -/
theorem claim1_capacity_iff (s : Store) (u a : String) (st : BookingStatus)
    (newId : String) (now : Nat) (fault : Bool) (act : Activity)
    (hfind : findDoc s.activities a = some act) :
    ((bookingService.createBooking s u a st newId now fault).1
        = Except.error BookingErr.CapacityExceeded) ↔
      (act.participantLimit > 0 ∧
        act.currentParticipants ≥ act.participantLimit) :=
  (createBooking_capacity_lift s u a st newId now fault).trans
    (createChecks_capacity hfind)

/-- Store with one activity `"A"` at `participantLimit = 1`,
`currentParticipants = 1`, and no bookings. -/
def wS1 : Store :=
  { activities := [("A", mkActivity 1 1)], bookings := [] }

/-- C1 witness: on `wS1` the hypothesis holds and the call fails with
`CapacityExceeded`; on the same store with limit 0 the iff rules the
error out. -/
theorem claim1_witness :
    (bookingService.createBooking wS1 "u" "A" BookingStatus.pending
        "b" 1 false).1 = Except.error BookingErr.CapacityExceeded :=
  (claim1_capacity_iff wS1 "u" "A" BookingStatus.pending "b" 1 false
    (mkActivity 1 1) (by decide)).mpr (by decide)

/-- C2: `createBooking` is all-or-nothing — on any error (including an
injected failure of the increment step) the store is unchanged and no
booking document with the fresh id exists; on success the new booking
document is present and the activity's counter is incremented by exactly
one. -/
theorem claim2_atomicity (s : Store) (u a : String) (st : BookingStatus)
    (newId : String) (now : Nat) (fault : Bool)
    (hfresh : findDoc s.bookings newId = none) :
    ((∃ e, (bookingService.createBooking s u a st newId now fault).1
        = Except.error e) →
      (bookingService.createBooking s u a st newId now fault).2 = s ∧
      findDoc (bookingService.createBooking
        s u a st newId now fault).2.bookings newId = none) ∧
    (∀ id2, (bookingService.createBooking s u a st newId now fault).1
        = Except.ok id2 →
      ∃ act, findDoc s.activities a = some act ∧
        findDoc (bookingService.createBooking
            s u a st newId now fault).2.bookings newId
          = some ({ mkBooking u a st with
              createdAt := now, updatedAt := now }) ∧
        ∃ act2, findDoc (bookingService.createBooking
            s u a st newId now fault).2.activities a = some act2 ∧
          act2.currentParticipants = act.currentParticipants + 1) := by
  rcases createBooking_split s u a st newId now fault with
    ⟨e, heq⟩ | ⟨act, hchk, _, heq⟩
  · rw [heq]
    refine ⟨fun _ => ⟨rfl, hfresh⟩, ?_⟩
    intro id2 h
    exact absurd h (by simp)
  · rw [heq]
    constructor
    · rintro ⟨e, he⟩
      exact absurd he (by simp)
    · intro id2 _
      refine ⟨act, (createChecks_ok hchk).1, ?_, ?_⟩
      · simp only [commitState, insertDoc]
        simp [findDoc, mkBooking]
      · exact ⟨_, findDoc_setDoc_self _ (createChecks_ok hchk).1, rfl⟩

/-- Store with activity `"A"` at limit 3, counter 0, and no bookings. -/
def wS2 : Store :=
  { activities := [("A", mkActivity 3 0)], bookings := [] }

/-- C2 witness: with the increment step forced to fail on `wS2`, the
returned store is `wS2` itself and no booking `"b"` exists. -/
theorem claim2_witness :
    (bookingService.createBooking wS2 "u" "A" BookingStatus.pending
        "b" 1 true).2 = wS2 ∧
    findDoc (bookingService.createBooking wS2 "u" "A"
        BookingStatus.pending "b" 1 true).2.bookings "b" = none :=
  (claim2_atomicity wS2 "u" "A" BookingStatus.pending "b" 1 true
      (by decide)).1
    ⟨BookingErr.TransactionFailed, by decide⟩

/-- Store with activity `"A"` at limit 1, counter 0, and no bookings. -/
def xS3 : Store :=
  { activities := [("A", mkActivity 1 0)], bookings := [] }

/-- C3 counterexample: on `xS3` (limit 1) the first
`createBooking("u1","A","pending")` succeeds and leaves an active
booking for `("u1","A")`, yet the identical second call fails with
`CapacityExceeded`, not `DuplicateBooking` — the capacity check runs
before the duplicate check. -/
theorem claim3_counterexample :
    (bookingService.createBooking xS3 "u1" "A" BookingStatus.pending
        "b1" 1 false).1 = Except.ok "b1" ∧
    (∃ p ∈ (bookingService.createBooking xS3 "u1" "A"
        BookingStatus.pending "b1" 1 false).2.bookings,
      p.2.userId = "u1" ∧ p.2.activityId = "A" ∧ isActive p.2) ∧
    (bookingService.createBooking
        (bookingService.createBooking xS3 "u1" "A" BookingStatus.pending
          "b1" 1 false).2
        "u1" "A" BookingStatus.pending "b2" 2 false).1
      = Except.error BookingErr.CapacityExceeded := by
  decide

/-- C3 (amended): when the target activity exists, the capacity
condition does not hold (`participantLimit = 0` or
`currentParticipants < participantLimit`), and an active
(confirmed/pending) booking for `(userId, activityId)` exists, the call
fails with `DuplicateBooking` and creates nothing; hence two calls in a
row yield `DuplicateBooking` on the second call provided the activity is
not at capacity after the first. -/
theorem claim3_amended (s : Store) (u a : String) (st : BookingStatus)
    (newId : String) (now : Nat) (fault : Bool) (act : Activity)
    (hfind : findDoc s.activities a = some act)
    (hcap : ¬ (act.participantLimit > 0 ∧
      act.currentParticipants ≥ act.participantLimit))
    (hdup : (s.bookings.filter (fun p =>
      p.2.userId = u ∧ p.2.activityId = a ∧ isActive p.2)) ≠ []) :
    bookingService.createBooking s u a st newId now fault
      = (Except.error BookingErr.DuplicateBooking, s) := by
  unfold bookingService.createBooking bookingService.createChecks
  rw [hfind]
  dsimp only
  rw [if_neg hcap, if_pos hdup]

/-- Store with activity `"A"` at limit 2, counter 1, and one pending
booking by `"u1"`. -/
def wS3 : Store :=
  { activities := [("A", mkActivity 2 1)],
    bookings := [("b1", mkBooking "u1" "A" BookingStatus.pending)] }

/-- C3 witness: on `wS3` (not at capacity, active duplicate present) the
second call fails with `DuplicateBooking` and the store is unchanged. -/
theorem claim3_witness :
    bookingService.createBooking wS3 "u1" "A" BookingStatus.pending
        "b2" 2 false
      = (Except.error BookingErr.DuplicateBooking, wS3) :=
  claim3_amended wS3 "u1" "A" BookingStatus.pending "b2" 2 false
    (mkActivity 2 1) (by decide) (by decide) (by decide)

/-- Store with activity `"A"` at limit 2, counter 1, and one confirmed
booking — it satisfies the claimed invariant. -/
def xS4 : Store :=
  { activities := [("A", mkActivity 2 1)],
    bookings := [("b", mkBooking "u1" "A" BookingStatus.confirmed)] }

/-- C4 counterexample: `xS4` satisfies the claimed invariant
(counter = number of confirmed/pending bookings), a successful
`changeBookingStatus` to `cancelled` is a run of the three operations,
and afterwards the invariant is violated: the counter still reads 1 but
no confirmed/pending booking remains. -/
theorem claim4_counterexample :
    capacityInv xS4 ∧
    succeeded (bookingService.changeBookingStatus xS4 "b"
        BookingStatus.cancelled 5).1 = true ∧
    ¬ capacityInv (bookingService.changeBookingStatus xS4 "b"
        BookingStatus.cancelled 5).2 := by
  decide

/-- C4 (amended): the invariant the code maintains counts bookings of
*any* status: along every sequential run of `createBooking`,
`deleteBooking` and `changeBookingStatus` (with fresh create ids) on a
well-formed store, every activity's `currentParticipants` stays equal to
the number of bookings referencing it — of any status, cancelled
included — and never exceeds `participantLimit` when
`participantLimit > 0`. -/
theorem claim4_amended (s : Store) (ops : List Op) (hInv : storeInv s)
    (hWF : WF s) (hfresh : freshTrace s ops = true) :
    storeInv (runTrace s ops) :=
  (inv_run ops s hInv hWF hfresh).1

/-- Store with activity `"A"` at limit 2, counter 0, no bookings. -/
def wS4 : Store :=
  { activities := [("A", mkActivity 2 0)], bookings := [] }

/-- A four-call run: two creates, a cancellation, a delete. -/
def wOps4 : List Op :=
  [Op.create "u1" "A" BookingStatus.pending "b1" 1,
   Op.create "u2" "A" BookingStatus.confirmed "b2" 2,
   Op.setStatus "b1" BookingStatus.cancelled 3,
   Op.remove "b2" 4]

/-- C4 witness: the amended invariant holds after running `wOps4` on
`wS4`. -/
theorem claim4_witness : storeInv (runTrace wS4 wOps4) :=
  claim4_amended wS4 wOps4 (by decide) (by decide) (by decide)

/-- Store with activity `"A"` (unlimited, counter 0) and one stale
confirmed booking referencing it. -/
def xS5 : Store :=
  { activities := [("A", mkActivity 0 0)],
    bookings := [("b", mkBooking "u1" "A" BookingStatus.confirmed)] }

/-- C5 counterexample: deleting booking `"b"` on `xS5` succeeds and
drives the activity's counter to −1 — `increment(-1)` applies no floor
at 0. -/
theorem claim5_counterexample :
    succeeded (bookingService.deleteBooking xS5 "b" 3).1 = true ∧
    findDoc (bookingService.deleteBooking xS5 "b" 3).2.activities "A"
      = some ({ mkActivity 0 0 with
          currentParticipants := -1, updatedAt := 3 }) := by
  decide

/-- C5 (amended): `deleteBooking(id)` fails with `NotFound` and changes
nothing when the booking is absent; when the booking and its referenced
activity exist, it atomically deletes the booking document and
decrements the activity's counter by exactly 1 with no floor at 0 (the
counter may go below 0, as when deleting against an already-zero
counter). -/
theorem claim5_amended (s : Store) (id : String) (now : Nat) :
    (findDoc s.bookings id = none →
      bookingService.deleteBooking s id now
        = (Except.error BookingErr.NotFound, s)) ∧
    (∀ b act, findDoc s.bookings id = some b →
      findDoc s.activities b.activityId = some act →
      (bookingService.deleteBooking s id now).1 = Except.ok () ∧
      findDoc (bookingService.deleteBooking s id now).2.bookings id
        = none ∧
      ∃ act2, findDoc (bookingService.deleteBooking
          s id now).2.activities b.activityId = some act2 ∧
        act2.currentParticipants = act.currentParticipants - 1) := by
  constructor
  · intro h
    exact deleteBooking_not_found now h
  · intro b act hb ha
    rw [deleteBooking_found now hb ha]
    refine ⟨rfl, ?_, ?_⟩
    · simp only [removeState]
      exact findDoc_removeDoc_self s.bookings id
    · exact ⟨_, findDoc_setDoc_self _ ha, rfl⟩

/-- Store with activity `"A"` at limit 3, counter 1, and one pending
booking. -/
def wS5 : Store :=
  { activities := [("A", mkActivity 3 1)],
    bookings := [("b", mkBooking "u1" "A" BookingStatus.pending)] }

/-- C5 witness: deleting `"b"` on `wS5` succeeds, removes the booking,
and decrements the counter to 0; deleting a missing id fails with
`NotFound` leaving the store unchanged. -/
theorem claim5_witness :
    (bookingService.deleteBooking wS5 "nope" 7
        = (Except.error BookingErr.NotFound, wS5)) ∧
    ((bookingService.deleteBooking wS5 "b" 7).1 = Except.ok () ∧
      findDoc (bookingService.deleteBooking wS5 "b" 7).2.bookings "b"
        = none ∧
      ∃ act2, findDoc (bookingService.deleteBooking
          wS5 "b" 7).2.activities
            (mkBooking "u1" "A" BookingStatus.pending).activityId
          = some act2 ∧
        act2.currentParticipants
          = (mkActivity 3 1).currentParticipants - 1) :=
  ⟨(claim5_amended wS5 "nope" 7).1 (by decide),
   (claim5_amended wS5 "b" 7).2 (mkBooking "u1" "A" BookingStatus.pending)
     (mkActivity 3 1) (by decide) (by decide)⟩

/-- C6: for an activity whose counter starts at 0 with no bookings
referencing it, after any well-formed sequential trace the counter
equals (number of successful creates against it) − (number of successful
deletes against it), and that value is never negative. -/
theorem claim6_counter (s : Store) (aId : String) (act : Activity)
    (ops : List Op) (hnd : (s.bookings.map Prod.fst).Nodup)
    (hfresh : freshTrace s ops = true)
    (hfind : findDoc s.activities aId = some act)
    (h0 : act.currentParticipants = 0)
    (hnob : countFor s.bookings aId = 0) :
    ∃ act2, findDoc (runTrace s ops).activities aId = some act2 ∧
      act2.currentParticipants
        = (traceCreates s aId ops : Int) - (traceDeletes s aId ops : Int) ∧
      traceDeletes s aId ops ≤ traceCreates s aId ops := by
  obtain ⟨act2, hfind2, hcnt2, heq2⟩ :=
    counter_run aId ops s act hnd hfresh hfind (by simp [h0, hnob])
  refine ⟨act2, hfind2, ?_, ?_⟩
  · rw [hcnt2]
    omega
  · omega

/-- Store with activity `"A"` unlimited, counter 0, no bookings. -/
def wS6 : Store :=
  { activities := [("A", mkActivity 0 0)], bookings := [] }

/-- A create, a delete of it, then another create. -/
def wOps6 : List Op :=
  [Op.create "u1" "A" BookingStatus.pending "b1" 1,
   Op.remove "b1" 2,
   Op.create "u2" "A" BookingStatus.pending "b2" 3]

/-- C6 witness: running `wOps6` on `wS6` gives N = 2 successful creates,
M = 1 successful delete, and the counter ends at N − M = 1. -/
theorem claim6_witness :
    ∃ act2, findDoc (runTrace wS6 wOps6).activities "A" = some act2 ∧
      act2.currentParticipants
        = (traceCreates wS6 "A" wOps6 : Int)
          - (traceDeletes wS6 "A" wOps6 : Int) ∧
      traceDeletes wS6 "A" wOps6 ≤ traceCreates wS6 "A" wOps6 :=
  claim6_counter wS6 "A" (mkActivity 0 0) wOps6 (by decide) (by decide)
    (by decide) (by decide) (by decide)

/-- C7: `changeBookingStatus(id, newStatus)` touches only the target
booking's `status` and `updatedAt`: the activities collection is
untouched (so no counter changes, in particular not on cancellation),
every other booking is untouched, and the target booking keeps all its
other fields. -/
theorem claim7_frame (s : Store) (id : String) (st : BookingStatus)
    (now : Nat) :
    (bookingService.changeBookingStatus s id st now).2.activities
      = s.activities ∧
    (∀ b, findDoc s.bookings id = some b →
      findDoc (bookingService.changeBookingStatus s id st now).2.bookings
          id
        = some ({ b with status := st, updatedAt := now })) ∧
    (∀ k, k ≠ id →
      findDoc (bookingService.changeBookingStatus s id st now).2.bookings
          k
        = findDoc s.bookings k) := by
  rcases hb : findDoc s.bookings id with _ | b
  · rw [changeStatus_not_found st now hb]
    refine ⟨rfl, ?_, fun k _ => rfl⟩
    intro b0 h
    exact absurd h (by simp)
  · rw [changeStatus_found st now hb]
    refine ⟨rfl, ?_, ?_⟩
    · intro b0 h
      obtain rfl : b = b0 := Option.some_inj.mp h
      simp only [statusState]
      exact findDoc_setDoc_self _ hb
    · intro k hk
      simp only [statusState]
      exact findDoc_setDoc_ne _ _ _ _ hk

/-- Store with activity `"A"` at limit 2, counter 1, one confirmed
booking and one unrelated booking on `"B"`. -/
def wS7 : Store :=
  { activities := [("A", mkActivity 2 1), ("B", mkActivity 0 1)],
    bookings := [("b", mkBooking "u1" "A" BookingStatus.confirmed),
                 ("c", mkBooking "u2" "B" BookingStatus.pending)] }

/-- C7 witness: cancelling booking `"b"` on `wS7` leaves the activities
(and so both counters) unchanged, rewrites only `status`/`updatedAt` of
`"b"`, and leaves booking `"c"` intact. -/
theorem claim7_witness :
    (bookingService.changeBookingStatus wS7 "b"
        BookingStatus.cancelled 5).2.activities = wS7.activities ∧
    findDoc (bookingService.changeBookingStatus wS7 "b"
        BookingStatus.cancelled 5).2.bookings "b"
      = some ({ mkBooking "u1" "A" BookingStatus.confirmed with
          status := BookingStatus.cancelled, updatedAt := 5 }) ∧
    findDoc (bookingService.changeBookingStatus wS7 "b"
        BookingStatus.cancelled 5).2.bookings "c"
      = findDoc wS7.bookings "c" :=
  ⟨(claim7_frame wS7 "b" BookingStatus.cancelled 5).1,
   (claim7_frame wS7 "b" BookingStatus.cancelled 5).2.1
     (mkBooking "u1" "A" BookingStatus.confirmed) (by decide),
   (claim7_frame wS7 "b" BookingStatus.cancelled 5).2.2 "c" (by decide)⟩

/-- Store with activity `"A"` at `participantLimit = 1`,
`currentParticipants = 0`, and no bookings: one free slot. -/
def raceS0 : Store :=
  { activities := [("A", mkActivity 1 0)], bookings := [] }

/-- The `"A"` activity document after both racing commits. -/
def raceAct2 : Activity :=
  { mkActivity 1 0 with currentParticipants := 2, updatedAt := 2 }

/-- The booking written by the first racing commit. -/
def raceB1 : Booking :=
  { mkBooking "u1" "A" BookingStatus.pending with
      createdAt := 1, updatedAt := 1 }

/-- The booking written by the second racing commit. -/
def raceB2 : Booking :=
  { mkBooking "u2" "A" BookingStatus.pending with
      createdAt := 2, updatedAt := 2 }

/-- The store after both racing transactions have committed. -/
def raceS2 : Store :=
  { activities := [("A", raceAct2)],
    bookings := [("b2", raceB2), ("b1", raceB1)] }

/-- C8: the pre-transaction checks run outside the transaction and the
transaction body re-reads nothing, so in the interleaving where both
callers run `createChecks` against the initial store before either
transaction commits, both pass (one slot free) and both commits apply:
the counter reaches 2 with `participantLimit = 1` and two bookings
occupy the one-slot activity — the claimed concurrent bound fails on
this code. -/
theorem claim8_race :
    succeeded (bookingService.createChecks raceS0 "u1" "A") = true ∧
    succeeded (bookingService.createChecks raceS0 "u2" "A") = true ∧
    (bookingService.createCommit raceS0 "u1" "A" BookingStatus.pending
        "b1" 1).bind
      (fun s1 => bookingService.createCommit s1 "u2" "A"
        BookingStatus.pending "b2" 2) = some raceS2 ∧
    findDoc raceS2.activities "A" = some raceAct2 ∧
    raceAct2.currentParticipants = 2 ∧
    raceAct2.participantLimit = 1 ∧
    countFor raceS2.bookings "A" = 2 := by
  decide

/-- C9: the two `createBooking` implementations — and the two
`deleteBooking` implementations — in the repository's two copies of the
booking service compute identical outcome/store pairs on every input. -/
theorem claim9_copies_equal (s : Store) (u a : String)
    (st : BookingStatus) (newId : String) (now : Nat) (fault : Bool)
    (id : String) (now2 : Nat) :
    unnamedCopy.createBooking s u a st newId now fault
      = bookingService.createBooking s u a st newId now fault ∧
    unnamedCopy.deleteBooking s id now2
      = bookingService.deleteBooking s id now2 :=
  ⟨rfl, rfl⟩

/-- C10: `createActivity` always writes `currentParticipants = 0`
(overriding any caller-supplied value spread into the document), and
sets `isExpired` to whether the supplied `endDate` is strictly in the
past at creation time. -/
theorem claim10_create_activity (inp : ActivityInput) (now : Nat) :
    (activityService.createActivity inp now).currentParticipants = 0 ∧
    ((activityService.createActivity inp now).isExpired = true
      ↔ inp.endDate < now) :=
  ⟨rfl, by simp [activityService.createActivity]⟩

end Meshwar
